import Mathlib

/-!
# Credential and token lifecycle of the authentication service (`index.js`)

A shallow embedding of the three request handlers of `index.js`

* `POST /api/signup`   (`signup`),
* `POST /api/signin`   (`signin`),
* `GET  /api/protected` (`verifyToken` followed by `protectedHandler`),

over an explicit store state.  Every handler returns the HTTP response, the
store after the request and the ordered list of collaborator calls it made.

The third-party libraries are parameters: `bcryptjs` and the compact
serialisation of `jsonwebtoken` are the fields of `Lib`.  What `jwt.sign` and
`jwt.verify` do around the serialisation (the secret must be present, the
`expiresIn: '24h'` option, the expiry check) is written out in `jwtSign` and
`jwtVerify`.

A field of a request body is any JSON value or absent (`Js`), as `express.json()`
delivers it; the `Authorization` header is a string or absent.  A collaborator that is
handed a value it cannot take throws into the handler's `catch`: `bcrypt.hash` and
`bcrypt.compare` reject a password that is not a string, and the store rejects a filter
or a field that is not a string.  The clock and the salt drawn by the hasher are inputs
of each request (`World`); the signing secret is the process configuration (`Config`).
-/

namespace Auth

/-! ## Data model -/

/-- Modelled from the spec: the mongoose model `Signup` (`./Schemas/SignupSchema.js`)
is not among the sources.  A user record has the four fields of the spec's data
model; the handlers call the password hash field `password`.  The identifier is
opaque, here a natural number. -/
structure User where
  _id : Nat
  name : String
  email : String
  password : String
deriving DecidableEq, Repr

/-- The collection of user records, in insertion order. -/
abbrev Store := List User

/-- A field of a JSON request body: absent (`undefined`), or a JSON value.  Numbers are
integers; arrays and objects are kept as their text. -/
inductive Js where
  | undefined
  | null
  | bool (b : Bool)
  | num (n : Int)
  | str (s : String)
  | obj (text : String)
deriving DecidableEq, Repr

/-- JavaScript `!v`: true for `undefined`, `null`, `false`, `0` and the empty string. -/
def Js.isFalsy : Js → Bool
  | .undefined => true
  | .null => true
  | .bool b => !b
  | .num n => decide (n = 0)
  | .str s => decide (s = "")
  | .obj _ => false

/-- What a collaborator can throw into a handler's `catch`. -/
inductive Thrown where
  | castError
  | validationError
  | duplicateKey
  | illegalArguments
  | secretMissing
  | jwtMalformed
  | jwtExpired
deriving DecidableEq, Repr

/-- Modelled from the spec: `findByEmail(email) -> User | absent`, an exact-match
lookup with no normalisation that returns absent on a miss
(`Signup.findOne({ email })`).  The emails of the store are strings; a filter value
that is not a string is rejected and the call throws. -/
def findOne (s : Store) (email : Js) : Except Thrown (Option User) :=
  match email with
  | .str e => .ok (s.find? (fun u => decide (u.email = e)))
  | _ => .error .castError

/-- Modelled from the spec: `findById(id) -> User | absent`
(`Signup.findById(id)`). -/
def findById (s : Store) (id : Nat) : Except Thrown (Option User) :=
  .ok (s.find? (fun u => decide (u._id = id)))

/-- Modelled from the spec: the identifier is "assigned by the store at creation"
and unique; the embedding takes one more than the largest identifier in use. -/
def freshId (s : Store) : Nat :=
  s.foldr (fun u m => max u._id m) 0 + 1

/-- The document built by `new Signup({ name, email, password: hashedPassword })`:
`none` when `name` or `email` is not a string, a document the store does not accept. -/
def newSignup (s : Store) (name email : Js) (hashedPassword : String) : Option User :=
  match name, email with
  | .str n, .str e => some { _id := freshId s, name := n, email := e, password := hashedPassword }
  | _, _ => none

/-- Modelled from the spec: `create` "fails with ConflictError if email already
exists" and otherwise appends the record (`newUser.save()`); it resolves to the saved
document.  A document the store does not accept makes the call throw. -/
def save (s : Store) (doc : Option User) : Except Thrown (User × Store) :=
  match doc with
  | none => .error .validationError
  | some u =>
    if s.any (fun v => decide (v.email = u.email)) then .error .duplicateKey
    else .ok (u, s ++ [u])

/-! ## JSON responses -/

/-- Scalar values inside a returned user document. -/
inductive Leaf where
  | str (s : String)
  | oid (n : Nat)
deriving DecidableEq, Repr

/-- Values of the top-level fields of a response body. -/
inductive JVal where
  | null
  | str (s : String)
  | doc (fields : List (String × Leaf))
deriving DecidableEq, Repr

/-- A JSON object: its fields in order. -/
abbrev Body := List (String × JVal)

/-- The HTTP response: status code and JSON body. -/
structure Response where
  status : Nat
  body : Body
deriving DecidableEq, Repr

/-- The body `{ message: m }`. -/
def msg (m : String) : Body := [("message", .str m)]

/-- The query projection `.select('-password')` followed by JSON serialisation: every field
of the record except `password`. -/
def selectMinusPassword (u : User) : JVal :=
  .doc [("_id", .oid u._id), ("name", .str u.name), ("email", .str u.email)]

/-- JSON serialisation of the result of `findById(...).select('-password')`. -/
def userJson : Option User → JVal
  | none => .null
  | some u => selectMinusPassword u

/-! ## Libraries and configuration -/

/-- The claims of a token together with the timestamps `jwt.sign` adds. -/
structure Payload where
  userId : Nat
  email : String
  iat : Nat
  exp : Nat
deriving DecidableEq, Repr

/-- The third-party functions the handlers depend on.  `hash password rounds salt`
is `bcrypt.hash(password, rounds)` for a string `password` when the library draws `salt`;
`compare candidate hash` is `bcrypt.compare` for a string `candidate`; `encode payload key`
is the signed
compact serialisation of a payload and `decode token key` parses a token and
checks its signature under `key`. -/
structure Lib where
  hash : String → Nat → Nat → String
  compare : String → String → Bool
  encode : Payload → String → String
  decode : String → String → Option Payload

/-- Process configuration: `JWT_SECRET = process.env.JWT_ACCESS_TOKEN`, which is
`undefined` (`none`) when the variable is not set. -/
structure Config where
  JWT_SECRET : Option String
deriving DecidableEq, Repr

/-- What a request reads from outside the store: the clock (in seconds) and the
salt drawn by the hasher. -/
structure World where
  now : Nat
  salt : Nat
deriving DecidableEq, Repr

/-- The cost factor of `bcrypt.hash`. -/
def saltRounds : Nat := 8

/-- The option `expiresIn: '24h'`, in seconds. -/
def expiresIn : Nat := 24 * 60 * 60

/-- JavaScript `!v` for a value that is a string or absent. -/
def isFalsy : Option String → Bool
  | none => true
  | some s => decide (s = "")

/-- The call `bcrypt.hash(password, rounds)`: rejects when `password` is not a string
("Illegal arguments"). -/
def bcryptHash (lib : Lib) (password : Js) (rounds salt : Nat) : Except Thrown String :=
  match password with
  | .str p => .ok (lib.hash p rounds salt)
  | _ => .error .illegalArguments

/-- The call `bcrypt.compare(password, hash)`: rejects when `password` is not a string
("Illegal arguments"). -/
def bcryptCompare (lib : Lib) (password : Js) (hash : String) : Except Thrown Bool :=
  match password with
  | .str p => .ok (lib.compare p hash)
  | _ => .error .illegalArguments

/-- The call `jwt.sign({ userId, email }, JWT_SECRET, { expiresIn: '24h' })`: throws when
the secret is absent or empty, otherwise serialises the claims with `iat` the current time
and `exp` 24 hours later. -/
def jwtSign (lib : Lib) (userId : Nat) (email : String) (secret : Option String)
    (now : Nat) : Except Thrown String :=
  if isFalsy secret then .error .secretMissing
  else .ok (lib.encode { userId := userId, email := email, iat := now, exp := now + expiresIn }
             (secret.getD ""))

/-- The call `jwt.verify(token, JWT_SECRET)`: throws when the secret is absent, when the
token does not parse or its signature does not match, and when the current time has
reached `exp`. -/
def jwtVerify (lib : Lib) (token : String) (secret : Option String) (now : Nat) :
    Except Thrown Payload :=
  if isFalsy secret then .error .secretMissing
  else
    match lib.decode token (secret.getD "") with
    | none => .error .jwtMalformed
    | some p => if p.exp ≤ now then .error .jwtExpired else .ok p

/-! ## Collaborator calls -/

/-- One call a handler makes to a collaborator, or `next()`. -/
inductive Event where
  | findOne (email : Js)
  | bcryptHash (password : Js) (rounds : Nat)
  | save (doc : Option User)
  | bcryptCompare (password : Js) (hash : String)
  | jwtSign (userId : Nat) (email : String)
  | jwtVerify (token : String)
  | next
  | findById (id : Nat)
deriving DecidableEq, Repr

/-- The result of running a route: response, store afterwards, calls made. -/
structure Outcome where
  res : Response
  store : Store
  log : List Event
deriving DecidableEq, Repr

/-! ## `String.prototype.split(' ')` -/

/-- Splitting a character sequence at every single space: `n` spaces give `n + 1` fields,
empty fields included. -/
def splitChars : List Char → List (List Char)
  | [] => [[]]
  | c :: cs =>
    if c = ' ' then [] :: splitChars cs
    else
      match splitChars cs with
      | [] => [[c]]
      | f :: fs => (c :: f) :: fs

/-- The call `h.split(' ')`. -/
def split (h : String) : List String :=
  (splitChars h.toList).map String.mk

/-- The expression `req.headers.authorization?.split(' ')[1]`. -/
def bearerToken (authorization : Option String) : Option String :=
  match authorization with
  | none => none
  | some h => (split h)[1]?

/-! ## The middleware and the routes -/

/-- What a middleware does: answer the request itself or call `next()` with `req.user`. -/
inductive MwResult where
  | respond (r : Response)
  | next (user : Payload)
deriving DecidableEq, Repr

/-- The middleware `verifyToken`. -/
def verifyToken (lib : Lib) (cfg : Config) (w : World) (authorization : Option String) :
    MwResult × List Event :=
  let token := bearerToken authorization
  if isFalsy token then
    (.respond ⟨401, msg "No token provided"⟩, [])
  else
    match jwtVerify lib (token.getD "") cfg.JWT_SECRET w.now with
    | .ok decoded => (.next decoded, [.jwtVerify (token.getD ""), .next])
    | .error _ => (.respond ⟨401, msg "Invalid token"⟩, [.jwtVerify (token.getD "")])

/-- The request body of `POST /api/signup`. -/
structure SignupBody where
  name : Js
  email : Js
  password : Js
deriving DecidableEq, Repr

/-- The request body of `POST /api/signin`. -/
structure SigninBody where
  email : Js
  password : Js
deriving DecidableEq, Repr

/-- The handler of `POST /api/signup`. -/
def signup (lib : Lib) (cfg : Config) (w : World) (s : Store) (body : SignupBody) : Outcome :=
  let name := body.name
  let email := body.email
  let password := body.password
  if name.isFalsy || email.isFalsy || password.isFalsy then
    ⟨⟨400, msg "All fields are required"⟩, s, []⟩
  else
    match findOne s email with
    | .error _ => ⟨⟨500, msg "Error registering user"⟩, s, [.findOne email]⟩
    | .ok (some _) =>
      ⟨⟨400, msg "User already registered with this email"⟩, s, [.findOne email]⟩
    | .ok none =>
      match bcryptHash lib password saltRounds w.salt with
      | .error _ =>
        ⟨⟨500, msg "Error registering user"⟩, s,
          [.findOne email, .bcryptHash password saltRounds]⟩
      | .ok hashedPassword =>
        let newUser := newSignup s name email hashedPassword
        match save s newUser with
        | .error _ =>
          ⟨⟨500, msg "Error registering user"⟩, s,
            [.findOne email, .bcryptHash password saltRounds, .save newUser]⟩
        | .ok (saved, s') =>
          match jwtSign lib saved._id saved.email cfg.JWT_SECRET w.now with
          | .error _ =>
            ⟨⟨500, msg "Error registering user"⟩, s',
              [.findOne email, .bcryptHash password saltRounds, .save newUser,
               .jwtSign saved._id saved.email]⟩
          | .ok token =>
            ⟨⟨201, [("message", .str "User registered successfully"), ("token", .str token)]⟩,
              s',
              [.findOne email, .bcryptHash password saltRounds, .save newUser,
               .jwtSign saved._id saved.email]⟩

/-- The handler of `POST /api/signin`. -/
def signin (lib : Lib) (cfg : Config) (w : World) (s : Store) (body : SigninBody) : Outcome :=
  let email := body.email
  let password := body.password
  if email.isFalsy || password.isFalsy then
    ⟨⟨400, msg "All fields are required"⟩, s, []⟩
  else
    match findOne s email with
    | .error _ => ⟨⟨500, msg "Error signing in. Please try again"⟩, s, [.findOne email]⟩
    | .ok none => ⟨⟨401, msg "Invalid credentials"⟩, s, [.findOne email]⟩
    | .ok (some user) =>
      match bcryptCompare lib password user.password with
      | .error _ =>
        ⟨⟨500, msg "Error signing in. Please try again"⟩, s,
          [.findOne email, .bcryptCompare password user.password]⟩
      | .ok isValidPassword =>
        if !isValidPassword then
          ⟨⟨401, msg "Invalid credentials"⟩, s,
            [.findOne email, .bcryptCompare password user.password]⟩
        else
          match jwtSign lib user._id user.email cfg.JWT_SECRET w.now with
          | .error _ =>
            ⟨⟨500, msg "Error signing in. Please try again"⟩, s,
              [.findOne email, .bcryptCompare password user.password,
               .jwtSign user._id user.email]⟩
          | .ok token =>
            ⟨⟨200, [("message", .str "Logged in successfully"), ("token", .str token)]⟩, s,
              [.findOne email, .bcryptCompare password user.password,
               .jwtSign user._id user.email]⟩

/-- The handler of `GET /api/protected`, run after `verifyToken` called `next()`. -/
def protectedHandler (s : Store) (user : Payload) : Outcome :=
  match findById s user.userId with
  | .error _ => ⟨⟨500, msg "Error accessing protected route"⟩, s, [.findById user.userId]⟩
  | .ok found =>
    ⟨⟨200, [("message", .str "Access granted to protected route"), ("user", userJson found)]⟩,
      s, [.findById user.userId]⟩

/-- The route `app.get("/api/protected", verifyToken, handler)`. -/
def protectedRoute (lib : Lib) (cfg : Config) (w : World) (s : Store)
    (authorization : Option String) : Outcome :=
  match verifyToken lib cfg w authorization with
  | (.respond r, log) => ⟨r, s, log⟩
  | (.next user, log) =>
    let out := protectedHandler s user
    ⟨out.res, out.store, log ++ out.log⟩

/-! ## Sequential execution -/

/-- A request to one of the three routes. -/
inductive Request where
  | signup (body : SignupBody)
  | signin (body : SigninBody)
  | getProtected (authorization : Option String)
deriving DecidableEq, Repr

/-- Serving one request. -/
def serve (lib : Lib) (cfg : Config) (w : World) (s : Store) : Request → Outcome
  | .signup body => signup lib cfg w s body
  | .signin body => signin lib cfg w s body
  | .getProtected authorization => protectedRoute lib cfg w s authorization

/-- The store after serving a sequence of requests one after the other. -/
def run (lib : Lib) (cfg : Config) : List (World × Request) → Store → Store
  | [], s => s
  | (w, r) :: rest, s => run lib cfg rest (serve lib cfg w s r).store

/-! ## A small library instance for concrete evaluation -/

/-- Binary digits of `n`, least significant first, as characters; `fuel` bounds the
number of digits. -/
def bitsAux : Nat → Nat → List Char
  | 0, _ => []
  | fuel + 1, n =>
    if n = 0 then [] else (if n % 2 = 1 then '1' else '0') :: bitsAux fuel (n / 2)

/-- A list of numbers as text: the binary digits of each number closed by a dot. -/
def encList : List Nat → List Char
  | [] => []
  | n :: ns => bitsAux n n ++ '.' :: encList ns

/-- Reading `encList` back: `acc` is the value read since the last dot and `wt` the
weight of the next digit. -/
def decList : List Char → Nat → Nat → List Nat
  | [], _, _ => []
  | c :: cs, acc, wt =>
    if c = '.' then acc :: decList cs 0 1
    else decList cs (if c = '1' then acc + wt else acc) (2 * wt)

/-- The numbers a payload and a key are serialised as. -/
def toyCode (p : Payload) (key : String) : List Nat :=
  p.userId :: p.iat :: p.exp :: p.email.length :: (p.email.toList.map Char.toNat ++
    key.toList.map Char.toNat)

/-- Serialisation of the toy token library. -/
def toyEncode (p : Payload) (key : String) : String :=
  String.mk (encList (toyCode p key))

/-- Parsing and key check of the toy token library. -/
def toyDecode (token key : String) : Option Payload :=
  match decList token.toList 0 1 with
  | u :: i :: e :: n :: rest =>
    if rest.drop n = key.toList.map Char.toNat ∧ n ≤ rest.length then
      some { userId := u, email := String.mk ((rest.take n).map Char.ofNat), iat := i, exp := e }
    else none
  | _ => none

/-- A library instance: the hasher writes the salt and the cost in unary before the
password, the token library is the binary code above. -/
def toyLib : Lib where
  hash p r salt := String.mk (List.replicate salt 's' ++ (List.replicate r 'r' ++ '$' :: p.toList))
  compare p h := decide ((h.toList.dropWhile (fun c => decide (c = 's'))).dropWhile
    (fun c => decide (c = 'r')) = '$' :: p.toList)
  encode := toyEncode
  decode := toyDecode

/-- The email a signup or signin request submits. -/
def Request.email : Request → Js
  | .signup body => body.email
  | .signin body => body.email
  | .getProtected _ => .undefined

/-- The property carried along a run: emails are pairwise different, identifiers are
pairwise different, and every record stems from a signup request among `done` whose
password it stores hashed with cost `saltRounds`. -/
def Inv (lib : Lib) (done : List (World × Request)) (s : Store) : Prop :=
  (s.map User.email).Nodup ∧ (s.map User._id).Nodup ∧
  ∀ u ∈ s, ∃ w body pw, (w, Request.signup body) ∈ done ∧ body.email = .str u.email ∧
    body.password = .str pw ∧ u.password = lib.hash pw saltRounds w.salt

/-- A sample history: a signup, a second signup with the same email, a signup with a
number for a password, a signin. -/
def sampleRequests : List (World × Request) :=
  [(⟨0, 2⟩, .signup ⟨.str "Al", .str "a@x", .str "pw"⟩),
   (⟨1, 3⟩, .signup ⟨.str "Bo", .str "a@x", .str "pw2"⟩),
   (⟨1, 5⟩, .signup ⟨.str "Di", .str "d@x", .num 7⟩),
   (⟨2, 4⟩, .signin ⟨.str "a@x", .str "pw"⟩)]

/-! ## Basic facts -/

@[simp] theorem isFalsy_none : isFalsy none = true := rfl

@[simp] theorem isFalsy_some (x : String) : isFalsy (some x) = decide (x = "") := rfl

theorem isFalsy_iff (v : Option String) : isFalsy v = true ↔ v = none ∨ v = some "" := by
  cases v <;> simp

theorem isFalsy_false_iff (v : Option String) :
    isFalsy v = false ↔ ∃ x, v = some x ∧ x ≠ "" := by
  cases v <;> simp

@[simp] theorem Js.isFalsy_str (x : String) : (Js.str x).isFalsy = decide (x = "") := rfl

@[simp] theorem Js.isFalsy_undefined : Js.undefined.isFalsy = true := rfl

@[simp] theorem findOne_str (s : Store) (email : String) :
    findOne s (.str email) = .ok (s.find? (fun u => decide (u.email = email))) := rfl

@[simp] theorem findById_eq (s : Store) (id : Nat) :
    findById s id = .ok (s.find? (fun u => decide (u._id = id))) := rfl

theorem jwtSign_ok (lib : Lib) (userId : Nat) (email : String) (k : String) (now : Nat)
    (hk : k ≠ "") :
    jwtSign lib userId email (some k) now =
      .ok (lib.encode { userId := userId, email := email, iat := now, exp := now + expiresIn } k) := by
  simp [jwtSign, hk]

theorem jwtSign_error (lib : Lib) (userId : Nat) (email : String) (secret : Option String)
    (now : Nat) (hk : isFalsy secret = true) :
    jwtSign lib userId email secret now = .error .secretMissing := by
  simp [jwtSign, hk]

/-! ## Validation of the signup body (C8) -/

/-- C8: a signup request in which one of `name`, `email`, `password` is absent or empty
is answered with status 400 and `{message: "All fields are required"}`; the store is
unchanged and no collaborator (store lookup, hasher, store write, token issuer) has been
called, whatever the store holds. -/
theorem signup_missing_field (lib : Lib) (cfg : Config) (w : World) (s : Store)
    (body : SignupBody)
    (h : (body.name = .undefined ∨ body.name = .str "") ∨
      (body.email = .undefined ∨ body.email = .str "") ∨
      (body.password = .undefined ∨ body.password = .str "")) :
    (signup lib cfg w s body).res = ⟨400, [("message", .str "All fields are required")]⟩ ∧
    (signup lib cfg w s body).store = s ∧
    (signup lib cfg w s body).log = [] := by
  have hf : (body.name.isFalsy || body.email.isFalsy || body.password.isFalsy) = true := by
    rcases h with (h | h) | (h | h) | (h | h) <;> simp [h]
  simp [signup, hf, msg]

theorem signup_missing_field_witness :
    (signup toyLib ⟨some "k"⟩ ⟨0, 2⟩ [⟨1, "Al", "a@x", "h"⟩]
        ⟨.str "Bo", .str "a@x", .str ""⟩).res
        = ⟨400, [("message", .str "All fields are required")]⟩ ∧
    (signup toyLib ⟨some "k"⟩ ⟨0, 2⟩ [⟨1, "Al", "a@x", "h"⟩]
        ⟨.str "Bo", .str "a@x", .str ""⟩).store
        = [⟨1, "Al", "a@x", "h"⟩] ∧
    (signup toyLib ⟨some "k"⟩ ⟨0, 2⟩ [⟨1, "Al", "a@x", "h"⟩]
        ⟨.str "Bo", .str "a@x", .str ""⟩).log
        = [] :=
  signup_missing_field toyLib ⟨some "k"⟩ ⟨0, 2⟩ [⟨1, "Al", "a@x", "h"⟩]
    ⟨.str "Bo", .str "a@x", .str ""⟩ (Or.inr (Or.inr (Or.inr rfl)))

/-! ## The middleware -/

theorem verifyToken_of_falsy (lib : Lib) (cfg : Config) (w : World) (a : Option String)
    (h : isFalsy (bearerToken a) = true) :
    verifyToken lib cfg w a = (.respond ⟨401, msg "No token provided"⟩, []) := by
  simp [verifyToken, h]

theorem verifyToken_of_token (lib : Lib) (cfg : Config) (w : World) (a : Option String)
    (tok : String) (h : bearerToken a = some tok) (hne : tok ≠ "") :
    verifyToken lib cfg w a =
      match jwtVerify lib tok cfg.JWT_SECRET w.now with
      | .ok decoded => (.next decoded, [.jwtVerify tok, .next])
      | .error _ => (.respond ⟨401, msg "Invalid token"⟩, [.jwtVerify tok]) := by
  simp [verifyToken, h, hne]

theorem bearerToken_absent_iff (a : Option String) :
    isFalsy (bearerToken a) = true ↔
      (a = none ∨ ∃ h, a = some h ∧ ((split h)[1]? = none ∨ (split h)[1]? = some "")) := by
  cases a with
  | none => simp [bearerToken]
  | some h => simp [bearerToken, isFalsy_iff]

/-- C7: `verifyToken` answers 401 `{message: "No token provided"}` exactly when the
`Authorization` header is missing or the second field of its split at single spaces is
missing or empty, and then it has called neither the token verifier nor `next()`; for
every other header the second field, and nothing else of the header, is what is passed to
`jwt.verify`, whose result alone decides the outcome. -/
theorem verifyToken_missing_iff (lib : Lib) (cfg : Config) (w : World)
    (authorization : Option String) :
    ((verifyToken lib cfg w authorization).1
        = .respond ⟨401, [("message", .str "No token provided")]⟩ ↔
      (authorization = none ∨ ∃ h, authorization = some h ∧
        ((split h)[1]? = none ∨ (split h)[1]? = some ""))) ∧
    ((authorization = none ∨ ∃ h, authorization = some h ∧
        ((split h)[1]? = none ∨ (split h)[1]? = some "")) →
      (verifyToken lib cfg w authorization).2 = []) ∧
    (∀ h tok, authorization = some h → (split h)[1]? = some tok → tok ≠ "" →
      verifyToken lib cfg w authorization =
        match jwtVerify lib tok cfg.JWT_SECRET w.now with
        | .ok decoded => (.next decoded, [.jwtVerify tok, .next])
        | .error _ => (.respond ⟨401, [("message", .str "Invalid token")]⟩, [.jwtVerify tok])) := by
  refine ⟨⟨?_, ?_⟩, ?_, ?_⟩
  · intro hres
    rw [← bearerToken_absent_iff]
    by_contra hf
    obtain ⟨tok, htok, hne⟩ := (isFalsy_false_iff _).1 (by simpa using hf)
    rw [verifyToken_of_token lib cfg w authorization tok htok hne] at hres
    cases hv : jwtVerify lib tok cfg.JWT_SECRET w.now with
    | ok d => simp [hv] at hres
    | error e =>
      simp only [hv, msg] at hres
      revert hres
      decide
  · intro habs
    rw [verifyToken_of_falsy lib cfg w authorization ((bearerToken_absent_iff _).2 habs)]
    rfl
  · intro habs
    rw [verifyToken_of_falsy lib cfg w authorization ((bearerToken_absent_iff _).2 habs)]
  · intro h tok ha htok hne
    subst ha
    exact verifyToken_of_token lib cfg w (some h) tok htok hne

theorem verifyToken_missing_iff_witness :
    verifyToken toyLib ⟨some "k"⟩ ⟨5, 2⟩ (some "Basic garbage more") =
      match jwtVerify toyLib "garbage" (some "k") 5 with
      | .ok decoded => (.next decoded, [.jwtVerify "garbage", .next])
      | .error _ =>
        (.respond ⟨401, [("message", .str "Invalid token")]⟩, [.jwtVerify "garbage"]) :=
  (verifyToken_missing_iff toyLib ⟨some "k"⟩ ⟨5, 2⟩ (some "Basic garbage more")).2.2
    "Basic garbage more" "garbage" rfl (by decide) (by decide)

/-! ## Failed verification (C6) -/

/-- C6: when the request carries a non-empty bearer token and `jwt.verify` throws, for
whatever cause, the route answers 401 `{message: "Invalid token"}`; the only call made is
the verification itself, so `next()` is not called, the store is not queried, and the
store is unchanged. -/
theorem protected_invalid_token (lib : Lib) (cfg : Config) (w : World) (s : Store)
    (authorization : Option String) (tok : String) (e : Thrown)
    (htok : bearerToken authorization = some tok) (hne : tok ≠ "")
    (hfail : jwtVerify lib tok cfg.JWT_SECRET w.now = .error e) :
    verifyToken lib cfg w authorization
      = (.respond ⟨401, [("message", .str "Invalid token")]⟩, [.jwtVerify tok]) ∧
    protectedRoute lib cfg w s authorization
      = ⟨⟨401, [("message", .str "Invalid token")]⟩, s, [.jwtVerify tok]⟩ := by
  have hv := verifyToken_of_token lib cfg w authorization tok htok hne
  simp only [hfail] at hv
  refine ⟨by rw [hv]; rfl, ?_⟩
  simp [protectedRoute, hv, msg]

/-- The causes for which `jwt.verify` throws: no secret, a token that does not parse or
whose signature does not match, an expiry time that has been reached. -/
theorem jwtVerify_error_iff (lib : Lib) (tok : String) (secret : Option String) (now : Nat) :
    (∃ e, jwtVerify lib tok secret now = .error e) ↔
      (isFalsy secret = true ∨ lib.decode tok (secret.getD "") = none ∨
        ∃ p, lib.decode tok (secret.getD "") = some p ∧ p.exp ≤ now) := by
  unfold jwtVerify
  cases hs : isFalsy secret
  · cases hd : lib.decode tok (secret.getD "") with
    | none => simp
    | some p =>
      by_cases hexp : p.exp ≤ now <;> simp [hexp]
  · simp

theorem protected_invalid_token_witness :
    verifyToken toyLib ⟨some "k"⟩ ⟨86400, 2⟩
        (some "Bearer 1..00000001100010101.11.1000011.0000001.0001111.1101011.")
      = (.respond ⟨401, [("message", .str "Invalid token")]⟩,
          [.jwtVerify "1..00000001100010101.11.1000011.0000001.0001111.1101011."]) ∧
    protectedRoute toyLib ⟨some "k"⟩ ⟨86400, 2⟩ [⟨1, "Al", "a@x", "ssrrrrrrrr$pw"⟩]
        (some "Bearer 1..00000001100010101.11.1000011.0000001.0001111.1101011.")
      = ⟨⟨401, [("message", .str "Invalid token")]⟩, [⟨1, "Al", "a@x", "ssrrrrrrrr$pw"⟩],
          [.jwtVerify "1..00000001100010101.11.1000011.0000001.0001111.1101011."]⟩ :=
  protected_invalid_token toyLib ⟨some "k"⟩ ⟨86400, 2⟩ [⟨1, "Al", "a@x", "ssrrrrrrrr$pw"⟩]
    (some "Bearer 1..00000001100010101.11.1000011.0000001.0001111.1101011.")
    "1..00000001100010101.11.1000011.0000001.0001111.1101011." .jwtExpired
    (by decide) (by decide) rfl

/-! ## A verified token of an unknown user (C10) -/

/-- C10: when `verifyToken` accepts the token and no record has the identifier of its
`userId` claim, the route answers 200 with
`{message: "Access granted to protected route", user: null}`. -/
theorem protected_unknown_user (lib : Lib) (cfg : Config) (w : World) (s : Store)
    (authorization : Option String) (decoded : Payload)
    (hverified : (verifyToken lib cfg w authorization).1 = .next decoded)
    (hunknown : ∀ u ∈ s, u._id ≠ decoded.userId) :
    (protectedRoute lib cfg w s authorization).res =
      ⟨200, [("message", .str "Access granted to protected route"), ("user", .null)]⟩ ∧
    (protectedRoute lib cfg w s authorization).store = s := by
  have hfind : s.find? (fun u => decide (u._id = decoded.userId)) = none := by
    rw [List.find?_eq_none]
    intro u hu
    simpa using hunknown u hu
  cases hv : verifyToken lib cfg w authorization with
  | mk r log =>
    rw [hv] at hverified
    simp only at hverified
    subst hverified
    simp [protectedRoute, hv, protectedHandler, hfind, userJson]

theorem protected_unknown_user_witness :
    (protectedRoute toyLib ⟨some "k"⟩ ⟨5, 2⟩ [⟨2, "Bo", "b@x", "ssrrrrrrrr$pw"⟩]
        (some "Bearer 1..00000001100010101.11.1000011.0000001.0001111.1101011.")).res =
      ⟨200, [("message", .str "Access granted to protected route"), ("user", .null)]⟩ ∧
    (protectedRoute toyLib ⟨some "k"⟩ ⟨5, 2⟩ [⟨2, "Bo", "b@x", "ssrrrrrrrr$pw"⟩]
        (some "Bearer 1..00000001100010101.11.1000011.0000001.0001111.1101011.")).store =
      [⟨2, "Bo", "b@x", "ssrrrrrrrr$pw"⟩] :=
  protected_unknown_user toyLib ⟨some "k"⟩ ⟨5, 2⟩ [⟨2, "Bo", "b@x", "ssrrrrrrrr$pw"⟩]
    (some "Bearer 1..00000001100010101.11.1000011.0000001.0001111.1101011.")
    ⟨1, "a@x", 0, 86400⟩ (by decide) (by decide)

/-! ## The branches of the handlers -/

theorem save_of_find_none (s : Store) (u : User)
    (h : s.find? (fun v => decide (v.email = u.email)) = none) :
    save s (some u) = .ok (u, s ++ [u]) := by
  have hany : s.any (fun v => decide (v.email = u.email)) = false := by
    rw [List.find?_eq_none] at h
    rw [List.any_eq_false]
    intro v hv
    simpa using h v hv
  simp [save, hany]

theorem find_none_iff (s : Store) (email : String) :
    s.find? (fun u => decide (u.email = email)) = none ↔ ∀ u ∈ s, u.email ≠ email := by
  simp [List.find?_eq_none]

theorem signup_invalid (lib : Lib) (cfg : Config) (w : World) (s : Store) (body : SignupBody)
    (h : (body.name.isFalsy || body.email.isFalsy || body.password.isFalsy) = true) :
    signup lib cfg w s body = ⟨⟨400, msg "All fields are required"⟩, s, []⟩ := by
  simp [signup, h]

theorem signup_conflict (lib : Lib) (cfg : Config) (w : World) (s : Store)
    (name password : Js) (email : String) (v : User)
    (hvalid : (name.isFalsy || (Js.str email).isFalsy || password.isFalsy) = false)
    (hfind : s.find? (fun u => decide (u.email = email)) = some v) :
    signup lib cfg w s ⟨name, .str email, password⟩ =
      ⟨⟨400, msg "User already registered with this email"⟩, s, [.findOne (.str email)]⟩ := by
  unfold signup
  simp only [hvalid, Bool.false_eq_true, if_false, findOne, hfind]

theorem signup_created (lib : Lib) (cfg : Config) (w : World) (s : Store)
    (name email password k : String)
    (hn : name ≠ "") (he : email ≠ "") (hp : password ≠ "")
    (hfind : s.find? (fun u => decide (u.email = email)) = none)
    (hsec : cfg.JWT_SECRET = some k) (hk : k ≠ "") :
    signup lib cfg w s ⟨.str name, .str email, .str password⟩ =
      ⟨⟨201, [("message", .str "User registered successfully"),
          ("token", .str (lib.encode ⟨freshId s, email, w.now, w.now + expiresIn⟩ k))]⟩,
        s ++ [⟨freshId s, name, email, lib.hash password saltRounds w.salt⟩],
        [.findOne (.str email), .bcryptHash (.str password) saltRounds,
         .save (some ⟨freshId s, name, email, lib.hash password saltRounds w.salt⟩),
         .jwtSign (freshId s) email]⟩ := by
  have hsave := save_of_find_none s ⟨freshId s, name, email, lib.hash password saltRounds w.salt⟩
    hfind
  simp [signup, hn, he, hp, hfind, hsave, hsec, jwtSign_ok, hk, newSignup, bcryptHash]

theorem signup_unsigned (lib : Lib) (cfg : Config) (w : World) (s : Store)
    (name email password : String)
    (hn : name ≠ "") (he : email ≠ "") (hp : password ≠ "")
    (hfind : s.find? (fun u => decide (u.email = email)) = none)
    (hsec : isFalsy cfg.JWT_SECRET = true) :
    signup lib cfg w s ⟨.str name, .str email, .str password⟩ =
      ⟨⟨500, msg "Error registering user"⟩,
        s ++ [⟨freshId s, name, email, lib.hash password saltRounds w.salt⟩],
        [.findOne (.str email), .bcryptHash (.str password) saltRounds,
         .save (some ⟨freshId s, name, email, lib.hash password saltRounds w.salt⟩),
         .jwtSign (freshId s) email]⟩ := by
  have hsave := save_of_find_none s ⟨freshId s, name, email, lib.hash password saltRounds w.salt⟩
    hfind
  simp [signup, hn, he, hp, hfind, hsave, jwtSign_error, hsec, newSignup, bcryptHash]

theorem secret_cases (secret : Option String) :
    isFalsy secret = true ∨ ∃ k, secret = some k ∧ k ≠ "" := by
  cases h : isFalsy secret
  · exact Or.inr ((isFalsy_false_iff _).1 h)
  · exact Or.inl rfl

/-- Every signup either leaves the store as it was and answers 400 or 500 with a message,
or has three non-empty strings as fields and an email that no record carries. -/
theorem signup_cases (lib : Lib) (cfg : Config) (w : World) (s : Store) (body : SignupBody) :
    ((signup lib cfg w s body).store = s ∧
      ∃ m, (signup lib cfg w s body).res = ⟨400, msg m⟩ ∨
        (signup lib cfg w s body).res = ⟨500, msg m⟩) ∨
    ∃ name email password, body = ⟨.str name, .str email, .str password⟩ ∧
      name ≠ "" ∧ email ≠ "" ∧ password ≠ "" ∧
      s.find? (fun u => decide (u.email = email)) = none := by
  obtain ⟨n, e, p⟩ := body
  cases hf : (n.isFalsy || e.isFalsy || p.isFalsy)
  · cases e with
    | str email =>
      cases hfind : s.find? (fun u => decide (u.email = email)) with
      | some v =>
        rw [signup_conflict lib cfg w s n p email v hf hfind]
        exact Or.inl ⟨rfl, _, Or.inl rfl⟩
      | none =>
        cases p with
        | str password =>
          cases n with
          | str name =>
            simp at hf
            exact Or.inr ⟨name, email, password, rfl, hf.1.1, hf.1.2, hf.2, hfind⟩
          | _ =>
            refine Or.inl ?_
            unfold signup
            simp only [hf, Bool.false_eq_true, if_false, findOne, hfind, bcryptHash, newSignup,
              save]
            exact ⟨trivial, _, Or.inr rfl⟩
        | _ =>
          refine Or.inl ?_
          unfold signup
          simp only [hf, Bool.false_eq_true, if_false, findOne, hfind, bcryptHash]
          exact ⟨trivial, _, Or.inr rfl⟩
    | _ =>
      refine Or.inl ?_
      unfold signup
      simp only [hf, Bool.false_eq_true, if_false, findOne]
      exact ⟨trivial, _, Or.inr rfl⟩
  · rw [signup_invalid lib cfg w s ⟨n, e, p⟩ hf]
    exact Or.inl ⟨rfl, _, Or.inl rfl⟩

theorem signin_invalid (lib : Lib) (cfg : Config) (w : World) (s : Store) (body : SigninBody)
    (h : (body.email.isFalsy || body.password.isFalsy) = true) :
    signin lib cfg w s body = ⟨⟨400, msg "All fields are required"⟩, s, []⟩ := by
  simp [signin, h]

theorem signin_unknown (lib : Lib) (cfg : Config) (w : World) (s : Store)
    (email : String) (password : Js)
    (hvalid : ((Js.str email).isFalsy || password.isFalsy) = false)
    (hfind : s.find? (fun u => decide (u.email = email)) = none) :
    signin lib cfg w s ⟨.str email, password⟩ =
      ⟨⟨401, msg "Invalid credentials"⟩, s, [.findOne (.str email)]⟩ := by
  unfold signin
  simp only [hvalid, Bool.false_eq_true, if_false, findOne, hfind]

theorem signin_compared (lib : Lib) (cfg : Config) (w : World) (s : Store)
    (email password : String) (user : User) (he : email ≠ "") (hp : password ≠ "")
    (hfind : s.find? (fun u => decide (u.email = email)) = some user) :
    signin lib cfg w s ⟨.str email, .str password⟩ =
      if !lib.compare password user.password then
        ⟨⟨401, msg "Invalid credentials"⟩, s,
          [.findOne (.str email), .bcryptCompare (.str password) user.password]⟩
      else
        match jwtSign lib user._id user.email cfg.JWT_SECRET w.now with
        | .error _ =>
          ⟨⟨500, msg "Error signing in. Please try again"⟩, s,
            [.findOne (.str email), .bcryptCompare (.str password) user.password,
             .jwtSign user._id user.email]⟩
        | .ok token =>
          ⟨⟨200, [("message", .str "Logged in successfully"), ("token", .str token)]⟩, s,
            [.findOne (.str email), .bcryptCompare (.str password) user.password,
             .jwtSign user._id user.email]⟩ := by
  have hvalid : ((Js.str email).isFalsy || (Js.str password).isFalsy) = false := by
    simp [he, hp]
  unfold signin
  simp only [hvalid, Bool.false_eq_true, if_false, findOne, hfind, bcryptCompare]

theorem signin_mismatch (lib : Lib) (cfg : Config) (w : World) (s : Store)
    (email password : String) (user : User) (he : email ≠ "") (hp : password ≠ "")
    (hfind : s.find? (fun u => decide (u.email = email)) = some user)
    (hcmp : lib.compare password user.password = false) :
    signin lib cfg w s ⟨.str email, .str password⟩ =
      ⟨⟨401, msg "Invalid credentials"⟩, s,
        [.findOne (.str email), .bcryptCompare (.str password) user.password]⟩ := by
  rw [signin_compared lib cfg w s email password user he hp hfind]
  simp [hcmp]

theorem signin_granted (lib : Lib) (cfg : Config) (w : World) (s : Store)
    (email password k : String) (user : User) (he : email ≠ "") (hp : password ≠ "")
    (hfind : s.find? (fun u => decide (u.email = email)) = some user)
    (hcmp : lib.compare password user.password = true)
    (hsec : cfg.JWT_SECRET = some k) (hk : k ≠ "") :
    signin lib cfg w s ⟨.str email, .str password⟩ =
      ⟨⟨200, [("message", .str "Logged in successfully"),
          ("token", .str (lib.encode ⟨user._id, user.email, w.now, w.now + expiresIn⟩ k))]⟩, s,
        [.findOne (.str email), .bcryptCompare (.str password) user.password,
         .jwtSign user._id user.email]⟩ := by
  rw [signin_compared lib cfg w s email password user he hp hfind]
  simp [hcmp, hsec, jwtSign_ok, hk]

theorem signin_unsigned (lib : Lib) (cfg : Config) (w : World) (s : Store)
    (email password : String) (user : User) (he : email ≠ "") (hp : password ≠ "")
    (hfind : s.find? (fun u => decide (u.email = email)) = some user)
    (hcmp : lib.compare password user.password = true)
    (hsec : isFalsy cfg.JWT_SECRET = true) :
    signin lib cfg w s ⟨.str email, .str password⟩ =
      ⟨⟨500, msg "Error signing in. Please try again"⟩, s,
        [.findOne (.str email), .bcryptCompare (.str password) user.password,
         .jwtSign user._id user.email]⟩ := by
  rw [signin_compared lib cfg w s email password user he hp hfind]
  simp [hcmp, jwtSign_error, hsec]

/-- Every signin either answers with a bare message (no token), or has two non-empty
strings as fields, finds a record for the email and the hasher accepts the password. -/
theorem signin_cases (lib : Lib) (cfg : Config) (w : World) (s : Store) (body : SigninBody) :
    (∃ st m, (signin lib cfg w s body).res = ⟨st, msg m⟩) ∨
    ∃ email password user, body = ⟨.str email, .str password⟩ ∧
      email ≠ "" ∧ password ≠ "" ∧
      s.find? (fun u => decide (u.email = email)) = some user ∧
      lib.compare password user.password = true := by
  obtain ⟨e, p⟩ := body
  cases hf : (e.isFalsy || p.isFalsy)
  · cases e with
    | str email =>
      cases hfind : s.find? (fun u => decide (u.email = email)) with
      | none =>
        rw [signin_unknown lib cfg w s email p hf hfind]
        exact Or.inl ⟨_, _, rfl⟩
      | some user =>
        cases p with
        | str password =>
          simp at hf
          cases hcmp : lib.compare password user.password with
          | false =>
            rw [signin_mismatch lib cfg w s email password user hf.1 hf.2 hfind hcmp]
            exact Or.inl ⟨_, _, rfl⟩
          | true =>
            exact Or.inr ⟨email, password, user, rfl, hf.1, hf.2, hfind, hcmp⟩
        | _ =>
          refine Or.inl ?_
          unfold signin
          simp only [hf, Bool.false_eq_true, if_false, findOne, hfind, bcryptCompare]
          exact ⟨_, _, rfl⟩
    | _ =>
      refine Or.inl ?_
      unfold signin
      simp only [hf, Bool.false_eq_true, if_false, findOne]
      exact ⟨_, _, rfl⟩
  · rw [signin_invalid lib cfg w s ⟨e, p⟩ hf]
    exact Or.inl ⟨_, _, rfl⟩

/-! ## Unknown email against wrong password (C1) -/

/-- C1, as the code has it: for every store, every non-empty string `e1` that no record
carries as email, every non-empty string `e2` that is registered and every non-empty string
password `p` that does not verify against the hash stored for `e2`, the responses to
`signin(e1, p)` and `signin(e2, p)` are the same in status and body, namely 401 with
`{message: "Invalid credentials"}`. -/
theorem signin_non_enumerable (lib : Lib) (cfg : Config) (w : World) (s : Store)
    (e1 e2 p : String) (u2 : User)
    (he1 : e1 ≠ "") (he2 : e2 ≠ "") (hp : p ≠ "")
    (hunregistered : ∀ u ∈ s, u.email ≠ e1)
    (hregistered : findOne s (.str e2) = .ok (some u2))
    (hwrong : lib.compare p u2.password = false) :
    (signin lib cfg w s ⟨.str e1, .str p⟩).res = (signin lib cfg w s ⟨.str e2, .str p⟩).res ∧
    (signin lib cfg w s ⟨.str e1, .str p⟩).res
      = ⟨401, [("message", .str "Invalid credentials")]⟩ := by
  have h2 : s.find? (fun u => decide (u.email = e2)) = some u2 := by
    simpa using hregistered
  rw [signin_unknown lib cfg w s e1 (.str p) (by simp [he1, hp])
      ((find_none_iff s e1).2 hunregistered),
    signin_mismatch lib cfg w s e2 p u2 he2 hp h2 hwrong]
  exact ⟨rfl, rfl⟩

theorem signin_non_enumerable_witness :
    (signin toyLib ⟨some "k"⟩ ⟨5, 2⟩ [⟨1, "Al", "a@x", "ssrrrrrrrr$pw"⟩]
        ⟨.str "b@x", .str "no"⟩).res
      = (signin toyLib ⟨some "k"⟩ ⟨5, 2⟩ [⟨1, "Al", "a@x", "ssrrrrrrrr$pw"⟩]
        ⟨.str "a@x", .str "no"⟩).res ∧
    (signin toyLib ⟨some "k"⟩ ⟨5, 2⟩ [⟨1, "Al", "a@x", "ssrrrrrrrr$pw"⟩]
        ⟨.str "b@x", .str "no"⟩).res
      = ⟨401, [("message", .str "Invalid credentials")]⟩ :=
  signin_non_enumerable toyLib ⟨some "k"⟩ ⟨5, 2⟩ [⟨1, "Al", "a@x", "ssrrrrrrrr$pw"⟩]
    "b@x" "a@x" "no" ⟨1, "Al", "a@x", "ssrrrrrrrr$pw"⟩
    (by decide) (by decide) (by decide) (by decide) rfl (by decide)

/-- C1 as stated fails in two ways on the store holding `a@x`.  The empty email is carried
by no record, yet `signin("", "no")` is answered 400 `{message: "All fields are required"}`
while `signin("a@x", "no")` is answered 401.  And the password `7`, a JSON number, is not
empty and is not verified against the stored hash: `signin("b@x", 7)` for the unknown
`b@x` is answered 401 `{message: "Invalid credentials"}`, `signin("a@x", 7)` for the
registered `a@x` is answered 500 `{message: "Error signing in. Please try again"}`. -/
theorem signin_distinguished :
    (∀ u ∈ [(⟨1, "Al", "a@x", "ssrrrrrrrr$pw"⟩ : User)], u.email ≠ "" ∧ u.email ≠ "b@x") ∧
    findOne [⟨1, "Al", "a@x", "ssrrrrrrrr$pw"⟩] (.str "a@x")
      = .ok (some ⟨1, "Al", "a@x", "ssrrrrrrrr$pw"⟩) ∧
    toyLib.compare "no" "ssrrrrrrrr$pw" = false ∧
    (signin toyLib ⟨some "k"⟩ ⟨5, 2⟩ [⟨1, "Al", "a@x", "ssrrrrrrrr$pw"⟩]
        ⟨.str "", .str "no"⟩).res = ⟨400, [("message", .str "All fields are required")]⟩ ∧
    (signin toyLib ⟨some "k"⟩ ⟨5, 2⟩ [⟨1, "Al", "a@x", "ssrrrrrrrr$pw"⟩]
        ⟨.str "a@x", .str "no"⟩).res = ⟨401, [("message", .str "Invalid credentials")]⟩ ∧
    (Js.num 7).isFalsy = false ∧
    (signin toyLib ⟨some "k"⟩ ⟨5, 2⟩ [⟨1, "Al", "a@x", "ssrrrrrrrr$pw"⟩]
        ⟨.str "b@x", .num 7⟩).res = ⟨401, [("message", .str "Invalid credentials")]⟩ ∧
    (signin toyLib ⟨some "k"⟩ ⟨5, 2⟩ [⟨1, "Al", "a@x", "ssrrrrrrrr$pw"⟩]
        ⟨.str "a@x", .num 7⟩).res
      = ⟨500, [("message", .str "Error signing in. Please try again")]⟩ :=
  ⟨by decide, rfl, by decide, by decide, by decide, by decide, by decide, by decide⟩

/-! ## Registration and its failure after the save (C5) -/

/-- C5, as the code has it: every signup request ends in one of three ways.  Either the
response is 201 with the issued token and exactly one record was appended to the store;
or the response is an error response, 400 or 500, and the store is unchanged; or token
issuance threw after the record had been saved, the response is 500
`{message: "Error registering user"}`, and the saved record stays in the store. -/
theorem signup_outcomes (lib : Lib) (cfg : Config) (w : World) (s : Store)
    (body : SignupBody) :
    (∃ tok u, (signup lib cfg w s body).res
          = ⟨201, [("message", .str "User registered successfully"), ("token", .str tok)]⟩ ∧
        jwtSign lib u._id u.email cfg.JWT_SECRET w.now = .ok tok ∧
        (signup lib cfg w s body).store = s ++ [u]) ∨
    (((signup lib cfg w s body).res.status = 400 ∨ (signup lib cfg w s body).res.status = 500) ∧
        (signup lib cfg w s body).store = s) ∨
    (∃ u e, (signup lib cfg w s body).res = ⟨500, [("message", .str "Error registering user")]⟩ ∧
        jwtSign lib u._id u.email cfg.JWT_SECRET w.now = .error e ∧
        (signup lib cfg w s body).store = s ++ [u]) := by
  rcases signup_cases lib cfg w s body with ⟨hstore, m, hres | hres⟩ |
    ⟨name, email, password, rfl, hn, he, hp, hfind⟩
  · exact Or.inr (Or.inl ⟨Or.inl (by rw [hres]), hstore⟩)
  · exact Or.inr (Or.inl ⟨Or.inr (by rw [hres]), hstore⟩)
  · rcases secret_cases cfg.JWT_SECRET with hsec | ⟨k, hsec, hk⟩
    · rw [signup_unsigned lib cfg w s name email password hn he hp hfind hsec]
      exact Or.inr (Or.inr ⟨⟨freshId s, name, email, lib.hash password saltRounds w.salt⟩,
        .secretMissing, rfl, jwtSign_error lib _ _ _ _ hsec, rfl⟩)
    · rw [signup_created lib cfg w s name email password k hn he hp hfind hsec hk]
      refine Or.inl ⟨_, ⟨freshId s, name, email, lib.hash password saltRounds w.salt⟩,
        rfl, ?_, rfl⟩
      rw [hsec]
      exact jwtSign_ok lib _ _ k _ hk

/-- C5 as stated fails: with no signing secret configured, a valid signup on the empty
store is answered 500 and yet leaves the new record in the store. -/
theorem signup_not_atomic :
    (signup toyLib ⟨none⟩ ⟨0, 2⟩ [] ⟨.str "Al", .str "a@x", .str "pw"⟩).res
      = ⟨500, [("message", .str "Error registering user")]⟩ ∧
    (signup toyLib ⟨none⟩ ⟨0, 2⟩ [] ⟨.str "Al", .str "a@x", .str "pw"⟩).store
      = [⟨1, "Al", "a@x", "ssrrrrrrrr$pw"⟩] ∧
    (signup toyLib ⟨none⟩ ⟨0, 2⟩ [] ⟨.str "Al", .str "a@x", .str "pw"⟩).store ≠ [] := by
  decide

/-- The four endings of a signup all occur: created, refused with the store unchanged
(a conflict), thrown before the save with the store unchanged (a number for a password, an
object for an email, a number for a name), thrown after the save with the record kept. -/
theorem signup_endings_occur :
    (signup toyLib ⟨some "k"⟩ ⟨0, 2⟩ [] ⟨.str "Al", .str "a@x", .str "pw"⟩).res.status = 201 ∧
    signup toyLib ⟨some "k"⟩ ⟨0, 2⟩ [⟨1, "Al", "a@x", "h"⟩] ⟨.str "Bo", .str "a@x", .str "pw"⟩
      = ⟨⟨400, [("message", .str "User already registered with this email")]⟩,
          [⟨1, "Al", "a@x", "h"⟩], [.findOne (.str "a@x")]⟩ ∧
    signup toyLib ⟨some "k"⟩ ⟨0, 2⟩ [⟨1, "Al", "a@x", "h"⟩] ⟨.str "Bo", .str "b@x", .num 7⟩
      = ⟨⟨500, [("message", .str "Error registering user")]⟩, [⟨1, "Al", "a@x", "h"⟩],
          [.findOne (.str "b@x"), .bcryptHash (.num 7) 8]⟩ ∧
    signup toyLib ⟨some "k"⟩ ⟨0, 2⟩ [⟨1, "Al", "a@x", "h"⟩] ⟨.str "Bo", .obj "[]", .str "pw"⟩
      = ⟨⟨500, [("message", .str "Error registering user")]⟩, [⟨1, "Al", "a@x", "h"⟩],
          [.findOne (.obj "[]")]⟩ ∧
    signup toyLib ⟨some "k"⟩ ⟨0, 2⟩ [⟨1, "Al", "a@x", "h"⟩] ⟨.num 3, .str "b@x", .str "pw"⟩
      = ⟨⟨500, [("message", .str "Error registering user")]⟩, [⟨1, "Al", "a@x", "h"⟩],
          [.findOne (.str "b@x"), .bcryptHash (.str "pw") 8, .save none]⟩ ∧
    (signup toyLib ⟨none⟩ ⟨0, 2⟩ [⟨1, "Al", "a@x", "h"⟩] ⟨.str "Bo", .str "b@x", .str "pw"⟩).store
      = [⟨1, "Al", "a@x", "h"⟩, ⟨2, "Bo", "b@x", "ssrrrrrrrr$pw"⟩] := by
  decide

/-! ## The store under sequential execution -/

theorem signin_store (lib : Lib) (cfg : Config) (w : World) (s : Store) (body : SigninBody) :
    (signin lib cfg w s body).store = s := by
  unfold signin
  simp only []
  split
  · rfl
  · split
    · rfl
    · rfl
    · split
      · rfl
      · split
        · rfl
        · split <;> rfl

theorem protectedRoute_store (lib : Lib) (cfg : Config) (w : World) (s : Store)
    (a : Option String) : (protectedRoute lib cfg w s a).store = s := by
  unfold protectedRoute
  split
  · rfl
  · simp [protectedHandler]

theorem signup_store (lib : Lib) (cfg : Config) (w : World) (s : Store) (body : SignupBody) :
    (signup lib cfg w s body).store = s ∨
      ∃ name email password, body = ⟨.str name, .str email, .str password⟩ ∧
        name ≠ "" ∧ email ≠ "" ∧ password ≠ "" ∧ (∀ u ∈ s, u.email ≠ email) ∧
        (signup lib cfg w s body).store
          = s ++ [⟨freshId s, name, email, lib.hash password saltRounds w.salt⟩] := by
  rcases signup_cases lib cfg w s body with ⟨hstore, -⟩ |
    ⟨name, email, password, rfl, hn, he, hp, hfind⟩
  · exact Or.inl hstore
  · refine Or.inr ⟨name, email, password, rfl, hn, he, hp, (find_none_iff s email).1 hfind, ?_⟩
    rcases secret_cases cfg.JWT_SECRET with hsec | ⟨k, hsec, hk⟩
    · rw [signup_unsigned lib cfg w s name email password hn he hp hfind hsec]
    · rw [signup_created lib cfg w s name email password k hn he hp hfind hsec hk]

theorem serve_store (lib : Lib) (cfg : Config) (w : World) (s : Store) (r : Request) :
    (serve lib cfg w s r).store = s ∨
      ∃ name email password, r = .signup ⟨.str name, .str email, .str password⟩ ∧
        name ≠ "" ∧ email ≠ "" ∧ password ≠ "" ∧ (∀ u ∈ s, u.email ≠ email) ∧
        (serve lib cfg w s r).store
          = s ++ [⟨freshId s, name, email, lib.hash password saltRounds w.salt⟩] := by
  cases r with
  | signup body =>
    rcases signup_store lib cfg w s body with h | ⟨n, e, p, rfl, h⟩
    · exact Or.inl h
    · exact Or.inr ⟨n, e, p, rfl, h⟩
  | signin body => exact Or.inl (signin_store lib cfg w s body)
  | getProtected a => exact Or.inl (protectedRoute_store lib cfg w s a)

theorem run_extends (lib : Lib) (cfg : Config) (reqs : List (World × Request)) (s : Store) :
    ∃ extra, run lib cfg reqs s = s ++ extra := by
  induction reqs generalizing s with
  | nil => exact ⟨[], by simp [run]⟩
  | cons wr rest ih =>
    obtain ⟨w, r⟩ := wr
    obtain ⟨extra, hextra⟩ := ih (serve lib cfg w s r).store
    rcases serve_store lib cfg w s r with h | ⟨n, e, p, _, _, _, _, _, h⟩
    · exact ⟨extra, by rw [run, hextra, h]⟩
    · exact ⟨⟨freshId s, n, e, lib.hash p saltRounds w.salt⟩ :: extra, by
        rw [run, hextra, h]; simp⟩

theorem find_append_of_some (s extra : Store) (q : User → Bool) (u : User)
    (h : s.find? q = some u) : (s ++ extra).find? q = some u := by
  simp [List.find?_append, h]

theorem lt_freshId (s : Store) : ∀ u ∈ s, u._id < freshId s := by
  induction s with
  | nil => simp
  | cons v rest ih =>
    intro u hu
    have hstep : freshId (v :: rest) = max v._id (freshId rest - 1) + 1 := by
      simp [freshId]
    have hpos : 0 < freshId rest := by simp [freshId]
    rcases List.mem_cons.1 hu with rfl | hmem
    · omega
    · have := ih u hmem
      omega

/-! ## Registration succeeds once (C2) -/

/-- C2, as the code has it: with the signing secret configured, a signup whose name,
email and password are non-empty strings and whose email no record carries is answered
201 and appends one record for that email; after any further requests, every signup with
the same email and any name and password that are not empty is answered 400
`{message: "User already registered with this email"}` and leaves the store unchanged. -/
theorem signup_once (lib : Lib) (cfg : Config) (w : World) (s : Store)
    (name email password k : String)
    (hn : name ≠ "") (he : email ≠ "") (hp : password ≠ "")
    (hnew : ∀ u ∈ s, u.email ≠ email)
    (hsec : cfg.JWT_SECRET = some k) (hk : k ≠ "") :
    (signup lib cfg w s ⟨.str name, .str email, .str password⟩).res.status = 201 ∧
    (signup lib cfg w s ⟨.str name, .str email, .str password⟩).store
      = s ++ [⟨freshId s, name, email, lib.hash password saltRounds w.salt⟩] ∧
    ∀ (later : List (World × Request)) (w' : World) (name' password' : Js),
      name'.isFalsy = false → password'.isFalsy = false →
      (signup lib cfg w'
          (run lib cfg later (signup lib cfg w s ⟨.str name, .str email, .str password⟩).store)
          ⟨name', .str email, password'⟩).res
        = ⟨400, [("message", .str "User already registered with this email")]⟩ ∧
      (signup lib cfg w'
          (run lib cfg later (signup lib cfg w s ⟨.str name, .str email, .str password⟩).store)
          ⟨name', .str email, password'⟩).store
        = run lib cfg later (signup lib cfg w s ⟨.str name, .str email, .str password⟩).store := by
  have hfind := (find_none_iff s email).2 hnew
  rw [signup_created lib cfg w s name email password k hn he hp hfind hsec hk]
  refine ⟨rfl, rfl, ?_⟩
  intro later w' name' password' hn' hp'
  obtain ⟨extra, hextra⟩ := run_extends lib cfg later
    (s ++ [⟨freshId s, name, email, lib.hash password saltRounds w.salt⟩])
  have hthere : (run lib cfg later
      (s ++ [⟨freshId s, name, email, lib.hash password saltRounds w.salt⟩])).find?
        (fun u => decide (u.email = email))
      = some ⟨freshId s, name, email, lib.hash password saltRounds w.salt⟩ := by
    rw [hextra]
    apply find_append_of_some
    simp [List.find?_append, hfind]
  simp only []
  rw [signup_conflict lib cfg w' _ name' password' email _ (by simp [hn', hp', he]) hthere]
  exact ⟨rfl, rfl⟩

theorem signup_once_witness :
    (signup toyLib ⟨some "k"⟩ ⟨0, 2⟩ [] ⟨.str "Al", .str "a@x", .str "pw"⟩).res.status = 201 ∧
    (signup toyLib ⟨some "k"⟩ ⟨0, 2⟩ [] ⟨.str "Al", .str "a@x", .str "pw"⟩).store
      = [] ++ [⟨freshId [], "Al", "a@x", toyLib.hash "pw" saltRounds 2⟩] ∧
    ∀ (later : List (World × Request)) (w' : World) (name' password' : Js),
      name'.isFalsy = false → password'.isFalsy = false →
      (signup toyLib ⟨some "k"⟩ w'
          (run toyLib ⟨some "k"⟩ later
            (signup toyLib ⟨some "k"⟩ ⟨0, 2⟩ [] ⟨.str "Al", .str "a@x", .str "pw"⟩).store)
          ⟨name', .str "a@x", password'⟩).res
        = ⟨400, [("message", .str "User already registered with this email")]⟩ ∧
      (signup toyLib ⟨some "k"⟩ w'
          (run toyLib ⟨some "k"⟩ later
            (signup toyLib ⟨some "k"⟩ ⟨0, 2⟩ [] ⟨.str "Al", .str "a@x", .str "pw"⟩).store)
          ⟨name', .str "a@x", password'⟩).store
        = run toyLib ⟨some "k"⟩ later
            (signup toyLib ⟨some "k"⟩ ⟨0, 2⟩ [] ⟨.str "Al", .str "a@x", .str "pw"⟩).store :=
  signup_once toyLib ⟨some "k"⟩ ⟨0, 2⟩ [] "Al" "a@x" "pw" "k"
    (by decide) (by decide) (by decide) (by decide) rfl (by decide)

/-- C2 as stated fails twice, with the signing secret configured.  A signup with a fresh
email whose password is the JSON number `7`, not empty, is answered 500 with the store
unchanged, not 201.  And after a successful signup of `a@x`, a later signup with the same
email and an empty name is answered `{message: "All fields are required"}`, not the
conflict response. -/
theorem signup_not_always_created_nor_conflict :
    (Js.num 7).isFalsy = false ∧
    (signup toyLib ⟨some "k"⟩ ⟨0, 2⟩ [] ⟨.str "Al", .str "a@x", .num 7⟩).res
      = ⟨500, [("message", .str "Error registering user")]⟩ ∧
    (signup toyLib ⟨some "k"⟩ ⟨0, 2⟩ [] ⟨.str "Al", .str "a@x", .num 7⟩).store = [] ∧
    (signup toyLib ⟨some "k"⟩ ⟨0, 2⟩ [] ⟨.str "Al", .str "a@x", .str "pw"⟩).res.status = 201 ∧
    (signup toyLib ⟨some "k"⟩ ⟨7, 3⟩
        (signup toyLib ⟨some "k"⟩ ⟨0, 2⟩ [] ⟨.str "Al", .str "a@x", .str "pw"⟩).store
        ⟨.str "", .str "a@x", .str "pw"⟩).res
      = ⟨400, [("message", .str "All fields are required")]⟩ ∧
    (signup toyLib ⟨some "k"⟩ ⟨7, 3⟩
        (signup toyLib ⟨some "k"⟩ ⟨0, 2⟩ [] ⟨.str "Al", .str "a@x", .str "pw"⟩).store
        ⟨.str "", .str "a@x", .str "pw"⟩).res
      ≠ ⟨400, [("message", .str "User already registered with this email")]⟩ := by
  decide

/-! ## Invariants of the store (C9) -/

theorem Inv_serve (lib : Lib) (cfg : Config) (done : List (World × Request)) (s : Store)
    (w : World) (r : Request) (h : Inv lib done s) :
    Inv lib (done ++ [(w, r)]) (serve lib cfg w s r).store := by
  obtain ⟨hemail, hid, hrec⟩ := h
  have hold : ∀ u ∈ s, ∃ w' body pw, (w', Request.signup body) ∈ done ++ [(w, r)] ∧
      body.email = .str u.email ∧ body.password = .str pw ∧
      u.password = lib.hash pw saltRounds w'.salt := by
    intro u hu
    obtain ⟨w', body, pw, hmem, h1, h2, h3⟩ := hrec u hu
    exact ⟨w', body, pw, List.mem_append_left _ hmem, h1, h2, h3⟩
  rcases serve_store lib cfg w s r with hsame | ⟨name, email, password, rfl, _, _, _, hnew, hst⟩
  · rw [hsame]
    exact ⟨hemail, hid, hold⟩
  · rw [hst]
    refine ⟨?_, ?_, ?_⟩
    · rw [List.map_append, List.nodup_append]
      refine ⟨hemail, by simp, ?_⟩
      intro a ha hb
      simp only [List.map_cons, List.map_nil, List.mem_singleton] at hb
      obtain ⟨u, hu, rfl⟩ := List.mem_map.1 ha
      exact hnew u hu hb
    · rw [List.map_append, List.nodup_append]
      refine ⟨hid, by simp, ?_⟩
      intro a ha hb
      simp only [List.map_cons, List.map_nil, List.mem_singleton] at hb
      obtain ⟨u, hu, rfl⟩ := List.mem_map.1 ha
      have := lt_freshId s u hu
      omega
    · intro u hu
      rcases List.mem_append.1 hu with hu | hu
      · exact hold u hu
      · rw [List.mem_singleton] at hu
        subst hu
        exact ⟨w, ⟨.str name, .str email, .str password⟩, password, by simp, rfl, rfl, rfl⟩

theorem Inv_run (lib : Lib) (cfg : Config) (reqs : List (World × Request)) :
    ∀ (done : List (World × Request)) (s : Store), Inv lib done s →
      Inv lib (done ++ reqs) (run lib cfg reqs s) := by
  induction reqs with
  | nil => intro done s h; simpa [run] using h
  | cons wr rest ih =>
    intro done s h
    obtain ⟨w, r⟩ := wr
    have := ih (done ++ [(w, r)]) _ (Inv_serve lib cfg done s w r h)
    simpa [run] using this

theorem Inv_reachable (lib : Lib) (cfg : Config) (reqs : List (World × Request)) :
    Inv lib reqs (run lib cfg reqs []) := by
  have := Inv_run lib cfg reqs [] [] ⟨by simp, by simp, by simp⟩
  simpa using this

/-- C9: starting from the empty store, after any finite sequence of signup, signin and
protected-route requests served one after the other, no two records share an email, and
every record stores, for a signup request of the sequence with that email, the hasher's
output for the submitted password at cost factor 8; given that the hasher never returns
its input, this is never the submitted plaintext. -/
theorem store_invariant (lib : Lib) (cfg : Config) (reqs : List (World × Request))
    (hhash : ∀ p salt, lib.hash p 8 salt ≠ p) :
    ((run lib cfg reqs []).map User.email).Nodup ∧
    ∀ u ∈ run lib cfg reqs [], ∃ w body pw, (w, Request.signup body) ∈ reqs ∧
      body.email = .str u.email ∧ body.password = .str pw ∧
      u.password = lib.hash pw 8 w.salt ∧ u.password ≠ pw := by
  obtain ⟨hemail, _, hrec⟩ := Inv_reachable lib cfg reqs
  refine ⟨hemail, ?_⟩
  intro u hu
  obtain ⟨w, body, pw, hmem, h1, h2, h3⟩ := hrec u hu
  refine ⟨w, body, pw, hmem, h1, h2, h3, ?_⟩
  rw [h3]
  exact hhash pw w.salt

theorem toy_hash_ne (p : String) (r salt : Nat) : toyLib.hash p r salt ≠ p := by
  intro h
  have hdata := congrArg String.data h
  have hlen := congrArg List.length hdata
  simp only [toyLib, List.length_append, List.length_replicate, List.length_cons,
    String.toList] at hlen
  omega

theorem store_invariant_witness :
    ((run toyLib ⟨some "k"⟩ sampleRequests []).map User.email).Nodup ∧
    ∀ u ∈ run toyLib ⟨some "k"⟩ sampleRequests [],
      ∃ w body pw, (w, Request.signup body) ∈ sampleRequests ∧
        body.email = .str u.email ∧ body.password = .str pw ∧
        u.password = toyLib.hash pw 8 w.salt ∧ u.password ≠ pw :=
  store_invariant toyLib ⟨some "k"⟩ sampleRequests (fun p salt => toy_hash_ne p 8 salt)

/-! ## Laws of the sample library -/

theorem decList_bitsAux (fuel : Nat) :
    ∀ (n : Nat), n ≤ fuel → ∀ (rest : List Char) (acc wt : Nat),
      decList (bitsAux fuel n ++ '.' :: rest) acc wt = (acc + wt * n) :: decList rest 0 1 := by
  induction fuel with
  | zero =>
    intro n hn rest acc wt
    have : n = 0 := by omega
    subst this
    simp [bitsAux, decList]
  | succ fuel ih =>
    intro n hn rest acc wt
    by_cases h0 : n = 0
    · subst h0
      simp [bitsAux, decList]
    · have hhalf : n / 2 ≤ fuel := by omega
      have hdm := Nat.div_add_mod n 2
      by_cases hodd : n % 2 = 1
      · have hch : ('1' : Char) ≠ '.' := by decide
        simp only [bitsAux, h0, hodd, if_true, if_false, List.cons_append, decList, hch]
        rw [ih (n / 2) hhalf]
        congr 1
        have : wt * n = wt * (2 * (n / 2) + 1) := by rw [← hodd, hdm]
        rw [this]
        ring
      · have hch : ('0' : Char) ≠ '.' := by decide
        have hch2 : ('0' : Char) ≠ '1' := by decide
        have heven : n % 2 = 0 := by omega
        simp only [bitsAux, h0, hodd, if_true, if_false, List.cons_append, decList, hch, hch2]
        rw [ih (n / 2) hhalf]
        congr 1
        have : wt * n = wt * (2 * (n / 2) + 0) := by rw [← heven, hdm]
        rw [this]
        ring

theorem decList_encList (ns : List Nat) : decList (encList ns) 0 1 = ns := by
  induction ns with
  | nil => rfl
  | cons n rest ih =>
    rw [encList, decList_bitsAux n n (Nat.le_refl n), ih]
    simp

theorem toy_decode_encode (p : Payload) (key : String) :
    toyLib.decode (toyLib.encode p key) key = some p := by
  have hlen : (p.email.data.map Char.toNat).length = p.email.length := by
    rw [List.length_map]
    rfl
  have hchars : List.map (Char.ofNat ∘ Char.toNat) p.email.data = p.email.data := by
    have hid : (Char.ofNat ∘ Char.toNat) = id := by
      funext c
      exact Char.ofNat_toNat c
    rw [hid, List.map_id]
  have hle : p.email.length
      ≤ (p.email.data.map Char.toNat ++ key.data.map Char.toNat).length := by
    rw [List.length_append, hlen]
    omega
  show toyDecode (toyEncode p key) key = some p
  unfold toyDecode toyEncode
  simp only [String.toList, decList_encList, toyCode]
  rw [List.drop_left' hlen, List.take_left' hlen]
  simp only [true_and, hle, if_true, List.map_map, hchars]

theorem bitsAux_chars (fuel : Nat) : ∀ n, ∀ c ∈ bitsAux fuel n, c = '0' ∨ c = '1' := by
  induction fuel with
  | zero => intro n c hc; simp [bitsAux] at hc
  | succ fuel ih =>
    intro n c hc
    by_cases h0 : n = 0
    · simp [bitsAux, h0] at hc
    · simp only [bitsAux, h0, if_false, List.mem_cons] at hc
      rcases hc with rfl | hc
      · by_cases hodd : n % 2 = 1 <;> simp [hodd]
      · exact ih _ c hc

theorem encList_chars (ns : List Nat) : ∀ c ∈ encList ns, c = '0' ∨ c = '1' ∨ c = '.' := by
  induction ns with
  | nil => intro c hc; simp [encList] at hc
  | cons n rest ih =>
    intro c hc
    simp only [encList, List.mem_append, List.mem_cons] at hc
    rcases hc with hc | rfl | hc
    · rcases bitsAux_chars n n c hc with h | h
      · exact Or.inl h
      · exact Or.inr (Or.inl h)
    · exact Or.inr (Or.inr rfl)
    · exact ih c hc

theorem toy_compact (p : Payload) (key : String) :
    toyLib.encode p key ≠ "" ∧ ' ' ∉ (toyLib.encode p key).toList := by
  constructor
  · intro h
    have hdata := congrArg String.data h
    have hlen := congrArg List.length hdata
    simp [toyLib, toyEncode, toyCode, encList] at hlen
  · intro h
    rcases encList_chars (toyCode p key) ' ' h with h | h | h <;> revert h <;> decide

theorem toy_compare_hash (p : String) (r salt : Nat) :
    toyLib.compare p (toyLib.hash p r salt) = true := by
  have hs : ∀ (n : Nat) (l : List Char),
      (List.replicate n 's' ++ l).dropWhile (fun c => decide (c = 's'))
        = l.dropWhile (fun c => decide (c = 's')) := by
    intro n l
    induction n with
    | zero => simp
    | succ n ih => simp [List.replicate_succ, List.dropWhile_cons, ih]
  have hr : ∀ (n : Nat) (l : List Char),
      (List.replicate n 'r' ++ l).dropWhile (fun c => decide (c = 'r'))
        = l.dropWhile (fun c => decide (c = 'r')) := by
    intro n l
    induction n with
    | zero => simp
    | succ n ih => simp [List.replicate_succ, List.dropWhile_cons, ih]
  have hs' : ∀ (n : Nat) (l : List Char),
      (List.replicate n 'r' ++ '$' :: l).dropWhile (fun c => decide (c = 's'))
        = List.replicate n 'r' ++ '$' :: l := by
    intro n l
    cases n with
    | zero => simp [List.dropWhile_cons]
    | succ n => simp [List.replicate_succ, List.dropWhile_cons]
  simp only [toyLib, String.toList, hs, hs', hr, List.dropWhile_cons]
  simp

/-! ## The bearer header of an issued token -/

theorem splitChars_of_no_space (l : List Char) (h : ' ' ∉ l) : splitChars l = [l] := by
  induction l with
  | nil => rfl
  | cons c cs ih =>
    have hc : c ≠ ' ' := fun hc => h (by simp [hc])
    have hcs : ' ' ∉ cs := fun hcs => h (List.mem_cons_of_mem _ hcs)
    simp [splitChars, hc, ih hcs]

theorem splitChars_append_space (a b : List Char) (h : ' ' ∉ a) :
    splitChars (a ++ ' ' :: b) = a :: splitChars b := by
  induction a with
  | nil => simp [splitChars]
  | cons c cs ih =>
    have hc : c ≠ ' ' := fun hc => h (by simp [hc])
    have hcs : ' ' ∉ cs := fun hcs => h (List.mem_cons_of_mem _ hcs)
    simp [splitChars, hc, ih hcs]

theorem bearerToken_bearer (tok : String) (h : ' ' ∉ tok.toList) :
    bearerToken (some ("Bearer " ++ tok)) = some tok := by
  have hlist : ("Bearer " ++ tok).toList = ['B', 'e', 'a', 'r', 'e', 'r'] ++ ' ' :: tok.toList := by
    simp
  have hb : ' ' ∉ ['B', 'e', 'a', 'r', 'e', 'r'] := by decide
  simp only [bearerToken, split, hlist, splitChars_append_space _ _ hb,
    splitChars_of_no_space _ h]
  rfl

theorem find_id_of_nodup (s : Store) (h : (s.map User._id).Nodup) :
    ∀ u ∈ s, s.find? (fun v => decide (v._id = u._id)) = some u := by
  induction s with
  | nil => intro u hu; simp at hu
  | cons v rest ih =>
    intro u hu
    rw [List.map_cons, List.nodup_cons] at h
    rcases List.mem_cons.1 hu with rfl | hmem
    · simp
    · have hne : v._id ≠ u._id := by
        intro heq
        exact h.1 (heq ▸ List.mem_map_of_mem User._id hmem)
      rw [List.find?_cons_of_neg _ (by simpa using hne)]
      exact ih h.2 u hmem

theorem jwtVerify_issued (lib : Lib) (p : Payload) (k : String) (now : Nat)
    (hjwt : ∀ p key, lib.decode (lib.encode p key) key = some p)
    (hk : k ≠ "") (hnow : now < p.exp) :
    jwtVerify lib (lib.encode p k) (some k) now = .ok p := by
  have : ¬ p.exp ≤ now := by omega
  simp [jwtVerify, hk, hjwt, this]

theorem protectedRoute_issued (lib : Lib) (cfg : Config) (w' : World) (s : Store) (u : User)
    (k : String) (t : Nat)
    (hjwt : ∀ p key, lib.decode (lib.encode p key) key = some p)
    (hcompact : ∀ p key, lib.encode p key ≠ "" ∧ ' ' ∉ (lib.encode p key).toList)
    (hsec : cfg.JWT_SECRET = some k) (hk : k ≠ "")
    (hfind : s.find? (fun v => decide (v._id = u._id)) = some u)
    (hnow : w'.now < t + expiresIn) :
    protectedRoute lib cfg w' s
        (some ("Bearer " ++ lib.encode ⟨u._id, u.email, t, t + expiresIn⟩ k)) =
      ⟨⟨200, [("message", .str "Access granted to protected route"),
          ("user", .doc [("_id", .oid u._id), ("name", .str u.name), ("email", .str u.email)])]⟩,
        s, [.jwtVerify (lib.encode ⟨u._id, u.email, t, t + expiresIn⟩ k), .next,
          .findById u._id]⟩ := by
  obtain ⟨hne, hsp⟩ := hcompact ⟨u._id, u.email, t, t + expiresIn⟩ k
  have hv := verifyToken_of_token lib cfg w' _ _ (bearerToken_bearer _ hsp) hne
  rw [hsec, jwtVerify_issued lib ⟨u._id, u.email, t, t + expiresIn⟩ k w'.now hjwt hk hnow] at hv
  simp [protectedRoute, hv, protectedHandler, hfind, userJson, selectMinusPassword]


/-! ## Signing in with a registered pair (C4) -/

/-- C4, as the code has it: let `(email, password)` be registered by a signup with
non-empty string fields and a fresh email, followed by any further requests, with the
signing secret configured.  Assuming the hasher verifies a plaintext against its own
hash and the token library decodes what it encoded, signin with the correct password is
answered 200 with a token that verifies under the secret at every time before
`now + 24 h` and carries the `userId` and `email` of the record, `iat = now` and
`exp = now + 24 h`.  With any other non-empty string password that does not verify
against the stored hash, signin is answered 401 `{message: "Invalid credentials"}`, the
body has no token and the token issuer is not called. -/
theorem signin_registered (lib : Lib) (cfg : Config) (w0 w : World) (s0 : Store)
    (later : List (World × Request)) (name email password k : String)
    (hn : name ≠ "") (he : email ≠ "") (hp : password ≠ "")
    (hnew : ∀ u ∈ s0, u.email ≠ email)
    (hsec : cfg.JWT_SECRET = some k) (hk : k ≠ "")
    (hhash : ∀ p salt, lib.compare p (lib.hash p 8 salt) = true)
    (hjwt : ∀ p key, lib.decode (lib.encode p key) key = some p) :
    (∃ tok,
      (signin lib cfg w
          (run lib cfg later (signup lib cfg w0 s0 ⟨.str name, .str email, .str password⟩).store)
          ⟨.str email, .str password⟩).res
        = ⟨200, [("message", .str "Logged in successfully"), ("token", .str tok)]⟩ ∧
      ∀ now', now' < w.now + 24 * 60 * 60 →
        jwtVerify lib tok cfg.JWT_SECRET now'
          = .ok ⟨freshId s0, email, w.now, w.now + 24 * 60 * 60⟩) ∧
    ∀ p', p' ≠ "" → lib.compare p' (lib.hash password 8 w0.salt) = false →
      signin lib cfg w
          (run lib cfg later (signup lib cfg w0 s0 ⟨.str name, .str email, .str password⟩).store)
          ⟨.str email, .str p'⟩
        = ⟨⟨401, [("message", .str "Invalid credentials")]⟩,
            run lib cfg later
              (signup lib cfg w0 s0 ⟨.str name, .str email, .str password⟩).store,
            [.findOne (.str email), .bcryptCompare (.str p') (lib.hash password 8 w0.salt)]⟩ := by
  have hfind := (find_none_iff s0 email).2 hnew
  rw [signup_created lib cfg w0 s0 name email password k hn he hp hfind hsec hk]
  simp only []
  obtain ⟨extra, hextra⟩ := run_extends lib cfg later
    (s0 ++ [⟨freshId s0, name, email, lib.hash password saltRounds w0.salt⟩])
  have hthere : (run lib cfg later
      (s0 ++ [⟨freshId s0, name, email, lib.hash password saltRounds w0.salt⟩])).find?
        (fun u => decide (u.email = email))
      = some ⟨freshId s0, name, email, lib.hash password saltRounds w0.salt⟩ := by
    rw [hextra]
    apply find_append_of_some
    simp [List.find?_append, hfind]
  refine ⟨⟨lib.encode ⟨freshId s0, email, w.now, w.now + expiresIn⟩ k, ?_, ?_⟩, ?_⟩
  · rw [signin_granted lib cfg w _ email password k _ he hp hthere (hhash password w0.salt)
      hsec hk]
  · intro now' hnow
    rw [hsec]
    exact jwtVerify_issued lib ⟨freshId s0, email, w.now, w.now + expiresIn⟩ k now' hjwt hk hnow
  · intro p' hp' hbad
    rw [signin_mismatch lib cfg w _ email p' _ he hp' hthere hbad]
    rfl

theorem signin_registered_witness :
    (∃ tok,
      (signin toyLib ⟨some "k"⟩ ⟨9, 4⟩
          (run toyLib ⟨some "k"⟩ sampleRequests
            (signup toyLib ⟨some "k"⟩ ⟨0, 2⟩ [] ⟨.str "Cy", .str "c@x", .str "pw"⟩).store)
          ⟨.str "c@x", .str "pw"⟩).res
        = ⟨200, [("message", .str "Logged in successfully"), ("token", .str tok)]⟩ ∧
      ∀ now', now' < (⟨9, 4⟩ : World).now + 24 * 60 * 60 →
        jwtVerify toyLib tok (⟨some "k"⟩ : Config).JWT_SECRET now'
          = .ok ⟨freshId [], "c@x", (⟨9, 4⟩ : World).now,
              (⟨9, 4⟩ : World).now + 24 * 60 * 60⟩) ∧
    ∀ p', p' ≠ "" → toyLib.compare p' (toyLib.hash "pw" 8 (⟨0, 2⟩ : World).salt) = false →
      signin toyLib ⟨some "k"⟩ ⟨9, 4⟩
          (run toyLib ⟨some "k"⟩ sampleRequests
            (signup toyLib ⟨some "k"⟩ ⟨0, 2⟩ [] ⟨.str "Cy", .str "c@x", .str "pw"⟩).store)
          ⟨.str "c@x", .str p'⟩
        = ⟨⟨401, [("message", .str "Invalid credentials")]⟩,
            run toyLib ⟨some "k"⟩ sampleRequests
              (signup toyLib ⟨some "k"⟩ ⟨0, 2⟩ [] ⟨.str "Cy", .str "c@x", .str "pw"⟩).store,
            [.findOne (.str "c@x"),
              .bcryptCompare (.str p') (toyLib.hash "pw" 8 (⟨0, 2⟩ : World).salt)]⟩ :=
  signin_registered toyLib ⟨some "k"⟩ ⟨0, 2⟩ ⟨9, 4⟩ [] sampleRequests "Cy" "c@x" "pw" "k"
    (by decide) (by decide) (by decide) (by decide) rfl (by decide)
    (fun p salt => toy_compare_hash p 8 salt) toy_decode_encode

/-- C4 as stated fails for another password that is not a string, with the signing
secret configured: `(a@x, pw)` is registered, the hasher verifies `pw` against the stored
hash and signin with `pw` is answered 200; the JSON number `7` is not empty and is not
verified against the stored hash, yet signin with it is answered 500
`{message: "Error signing in. Please try again"}`, not 401. -/
theorem signin_other_password_thrown :
    (signup toyLib ⟨some "k"⟩ ⟨0, 2⟩ [] ⟨.str "Al", .str "a@x", .str "pw"⟩).res.status = 201 ∧
    (signup toyLib ⟨some "k"⟩ ⟨0, 2⟩ [] ⟨.str "Al", .str "a@x", .str "pw"⟩).store
      = [⟨1, "Al", "a@x", toyLib.hash "pw" 8 2⟩] ∧
    toyLib.compare "pw" (toyLib.hash "pw" 8 2) = true ∧
    (signin toyLib ⟨some "k"⟩ ⟨5, 3⟩ [⟨1, "Al", "a@x", toyLib.hash "pw" 8 2⟩]
        ⟨.str "a@x", .str "pw"⟩).res.status = 200 ∧
    (Js.num 7).isFalsy = false ∧
    (signin toyLib ⟨some "k"⟩ ⟨5, 3⟩ [⟨1, "Al", "a@x", toyLib.hash "pw" 8 2⟩]
        ⟨.str "a@x", .num 7⟩).res
      = ⟨500, [("message", .str "Error signing in. Please try again")]⟩ ∧
    (signin toyLib ⟨some "k"⟩ ⟨5, 3⟩ [⟨1, "Al", "a@x", toyLib.hash "pw" 8 2⟩]
        ⟨.str "a@x", .num 7⟩).res
      ≠ ⟨401, [("message", .str "Invalid credentials")]⟩ := by
  decide

/-! ## Token round trip (C3) -/

theorem lookup_token_msg (m : String) : (msg m).lookup "token" = none := by
  simp [msg, List.lookup]

theorem signup_token (lib : Lib) (cfg : Config) (w : World) (s : Store) (body : SignupBody)
    (tok : String)
    (h : (signup lib cfg w s body).res.body.lookup "token" = some (.str tok)) :
    ∃ name email password k, body = ⟨.str name, .str email, .str password⟩ ∧
      cfg.JWT_SECRET = some k ∧ k ≠ "" ∧
      tok = lib.encode ⟨freshId s, email, w.now, w.now + expiresIn⟩ k ∧
      (signup lib cfg w s body).store
        = s ++ [⟨freshId s, name, email, lib.hash password saltRounds w.salt⟩] ∧
      ∀ u ∈ s, u._id ≠ freshId s := by
  rcases signup_cases lib cfg w s body with ⟨-, m, hres | hres⟩ |
    ⟨name, email, password, rfl, hn, he, hp, hfind⟩
  · rw [hres] at h
    simp [lookup_token_msg] at h
  · rw [hres] at h
    simp [lookup_token_msg] at h
  · rcases secret_cases cfg.JWT_SECRET with hsec | ⟨k, hsec, hk⟩
    · rw [signup_unsigned lib cfg w s name email password hn he hp hfind hsec] at h
      simp [lookup_token_msg] at h
    · rw [signup_created lib cfg w s name email password k hn he hp hfind hsec hk] at h ⊢
      simp [List.lookup] at h
      refine ⟨name, email, password, k, rfl, hsec, hk, h.symm, rfl, ?_⟩
      intro u hu
      have := lt_freshId s u hu
      omega

theorem signin_token (lib : Lib) (cfg : Config) (w : World) (s : Store) (body : SigninBody)
    (tok : String)
    (h : (signin lib cfg w s body).res.body.lookup "token" = some (.str tok)) :
    ∃ email password k user, body = ⟨.str email, .str password⟩ ∧
      cfg.JWT_SECRET = some k ∧ k ≠ "" ∧
      s.find? (fun u => decide (u.email = email)) = some user ∧
      tok = lib.encode ⟨user._id, user.email, w.now, w.now + expiresIn⟩ k := by
  rcases signin_cases lib cfg w s body with ⟨st, m, hres⟩ |
    ⟨email, password, user, rfl, he, hp, hfind, hcmp⟩
  · rw [hres] at h
    simp [lookup_token_msg] at h
  · rcases secret_cases cfg.JWT_SECRET with hsec | ⟨k, hsec, hk⟩
    · rw [signin_unsigned lib cfg w s email password user he hp hfind hcmp hsec] at h
      simp [lookup_token_msg] at h
    · rw [signin_granted lib cfg w s email password k user he hp hfind hcmp hsec hk] at h
      simp [List.lookup] at h
      exact ⟨email, password, k, user, rfl, hsec, hk, hfind, h.symm⟩

theorem protectedRoute_no_token (lib : Lib) (cfg : Config) (w : World) (s : Store)
    (a : Option String) : (protectedRoute lib cfg w s a).res.body.lookup "token" = none := by
  cases hf : isFalsy (bearerToken a) with
  | true =>
    simp [protectedRoute, verifyToken_of_falsy lib cfg w a hf, lookup_token_msg]
  | false =>
    obtain ⟨tok, htok, hne⟩ := (isFalsy_false_iff _).1 hf
    have hv := verifyToken_of_token lib cfg w a tok htok hne
    cases hj : jwtVerify lib tok cfg.JWT_SECRET w.now with
    | ok d =>
      simp only [hj] at hv
      simp [protectedRoute, hv, protectedHandler, List.lookup]
    | error e =>
      simp only [hj] at hv
      simp [protectedRoute, hv, lookup_token_msg]

theorem verifyToken_issued (lib : Lib) (cfg : Config) (w' : World) (p : Payload) (k : String)
    (hjwt : ∀ p key, lib.decode (lib.encode p key) key = some p)
    (hcompact : ∀ p key, lib.encode p key ≠ "" ∧ ' ' ∉ (lib.encode p key).toList)
    (hsec : cfg.JWT_SECRET = some k) (hk : k ≠ "") (hnow : w'.now < p.exp) :
    verifyToken lib cfg w' (some ("Bearer " ++ lib.encode p k))
      = (.next p, [.jwtVerify (lib.encode p k), .next]) := by
  obtain ⟨hne, hsp⟩ := hcompact p k
  have hv := verifyToken_of_token lib cfg w' _ _ (bearerToken_bearer _ hsp) hne
  rw [hsec, jwtVerify_issued lib p k w'.now hjwt hk hnow] at hv
  exact hv

/-- C3: let a signup or signin request, served on a store reached from the empty store,
return a token (so the response is the 201 or the 200).  Assuming the token library
decodes what it encoded and its tokens are non-empty and free of spaces, presenting the
token as `Authorization: Bearer <token>` on the resulting store at any time before
`now + 24 h`, under the same configuration, passes `verifyToken` and is answered 200 with
`{message: "Access granted to protected route", user}` where `user` has exactly the
fields `_id`, `name`, `email` of the record of the request's email (for a signup, the
record with the submitted name) and no `password` field. -/
theorem token_round_trip (lib : Lib) (cfg : Config) (history : List (World × Request))
    (w w' : World) (req : Request) (tok : String)
    (hjwt : ∀ p key, lib.decode (lib.encode p key) key = some p)
    (hcompact : ∀ p key, lib.encode p key ≠ "" ∧ ' ' ∉ (lib.encode p key).toList)
    (hissued : (serve lib cfg w (run lib cfg history []) req).res.body.lookup "token"
      = some (.str tok))
    (hnow : w'.now < w.now + 24 * 60 * 60) :
    ∃ u ∈ (serve lib cfg w (run lib cfg history []) req).store,
      req.email = .str u.email ∧
      (∀ body, req = .signup body → body.name = .str u.name) ∧
      verifyToken lib cfg w' (some ("Bearer " ++ tok))
        = (.next ⟨u._id, u.email, w.now, w.now + 24 * 60 * 60⟩, [.jwtVerify tok, .next]) ∧
      protectedRoute lib cfg w' (serve lib cfg w (run lib cfg history []) req).store
          (some ("Bearer " ++ tok))
        = ⟨⟨200, [("message", .str "Access granted to protected route"),
              ("user", .doc [("_id", .oid u._id), ("name", .str u.name),
                ("email", .str u.email)])]⟩,
            (serve lib cfg w (run lib cfg history []) req).store,
            [.jwtVerify tok, .next, .findById u._id]⟩ := by
  obtain ⟨-, hids, -⟩ := Inv_reachable lib cfg history
  cases req with
  | getProtected a =>
    simp only [serve] at hissued
    rw [protectedRoute_no_token] at hissued
    cases hissued
  | signup body =>
    simp only [serve] at hissued ⊢
    obtain ⟨name, email, password, k, rfl, hsec, hk, rfl, hstore, hfresh⟩ :=
      signup_token lib cfg w _ body tok hissued
    rw [hstore]
    have hfind : (run lib cfg history [] ++
        [(⟨freshId (run lib cfg history []), name, email,
          lib.hash password saltRounds w.salt⟩ : User)]).find?
          (fun v : User => decide (v._id = freshId (run lib cfg history [])))
        = some ⟨freshId (run lib cfg history []), name, email,
            lib.hash password saltRounds w.salt⟩ := by
      have hnone : (run lib cfg history []).find?
          (fun v : User => decide (v._id = freshId (run lib cfg history []))) = none := by
        rw [List.find?_eq_none]
        intro v hv
        simpa using hfresh v hv
      simp [List.find?_append, hnone]
    refine ⟨⟨freshId (run lib cfg history []), name, email,
      lib.hash password saltRounds w.salt⟩, by simp, rfl, ?_, ?_, ?_⟩
    · intro body' hb
      cases hb
      rfl
    · exact verifyToken_issued lib cfg w' ⟨_, email, w.now, w.now + expiresIn⟩ k hjwt hcompact
        hsec hk hnow
    · exact protectedRoute_issued lib cfg w' _
        ⟨freshId (run lib cfg history []), name, email, lib.hash password saltRounds w.salt⟩
        k w.now hjwt hcompact hsec hk hfind hnow
  | signin body =>
    simp only [serve] at hissued ⊢
    obtain ⟨email, password, k, user, rfl, hsec, hk, hfound, rfl⟩ :=
      signin_token lib cfg w _ body tok hissued
    rw [signin_store]
    have hmem : user ∈ run lib cfg history [] := List.mem_of_find?_eq_some hfound
    have hemail : user.email = email := by
      simpa using List.find?_some hfound
    refine ⟨user, hmem, by simp [Request.email, hemail], ?_, ?_, ?_⟩
    · intro body' hb
      cases hb
    · exact verifyToken_issued lib cfg w' ⟨user._id, user.email, w.now, w.now + expiresIn⟩ k
        hjwt hcompact hsec hk hnow
    · exact protectedRoute_issued lib cfg w' _ user k w.now hjwt hcompact hsec hk
        (find_id_of_nodup _ hids user hmem) hnow

theorem token_round_trip_witness :
    ∃ u ∈ (serve toyLib ⟨some "k"⟩ ⟨2, 4⟩ (run toyLib ⟨some "k"⟩ sampleRequests [])
        (.signin ⟨.str "a@x", .str "pw"⟩)).store,
      (Request.signin ⟨.str "a@x", .str "pw"⟩).email = .str u.email ∧
      (∀ body, Request.signin ⟨.str "a@x", .str "pw"⟩ = .signup body →
        body.name = .str u.name) ∧
      verifyToken toyLib ⟨some "k"⟩ ⟨60, 0⟩
          (some ("Bearer " ++ toyEncode ⟨1, "a@x", 2, 86402⟩ "k"))
        = (.next ⟨u._id, u.email, (⟨2, 4⟩ : World).now, (⟨2, 4⟩ : World).now + 24 * 60 * 60⟩,
            [.jwtVerify (toyEncode ⟨1, "a@x", 2, 86402⟩ "k"), .next]) ∧
      protectedRoute toyLib ⟨some "k"⟩ ⟨60, 0⟩
          (serve toyLib ⟨some "k"⟩ ⟨2, 4⟩ (run toyLib ⟨some "k"⟩ sampleRequests [])
            (.signin ⟨.str "a@x", .str "pw"⟩)).store
          (some ("Bearer " ++ toyEncode ⟨1, "a@x", 2, 86402⟩ "k"))
        = ⟨⟨200, [("message", .str "Access granted to protected route"),
              ("user", .doc [("_id", .oid u._id), ("name", .str u.name),
                ("email", .str u.email)])]⟩,
            (serve toyLib ⟨some "k"⟩ ⟨2, 4⟩ (run toyLib ⟨some "k"⟩ sampleRequests [])
              (.signin ⟨.str "a@x", .str "pw"⟩)).store,
            [.jwtVerify (toyEncode ⟨1, "a@x", 2, 86402⟩ "k"), .next, .findById u._id]⟩ :=
  token_round_trip toyLib ⟨some "k"⟩ sampleRequests ⟨2, 4⟩ ⟨60, 0⟩
    (.signin ⟨.str "a@x", .str "pw"⟩) (toyEncode ⟨1, "a@x", 2, 86402⟩ "k")
    toy_decode_encode toy_compact (by decide) (by decide)

end Auth
